import Mathlib

/-!
Shallow embedding of the chess engine in `src/src/lib.rs` (crate
`chess_engine`), together with proofs about the claims of its
specification.

Modelling conventions, used consistently below:

* Rust `Result<T, String>` is modelled as `Option T` — an `Err(..)` is
  `none`; the error strings carry no behavioural information.
* Methods taking `&mut self` and returning `Result<T, String>` are
  modelled as functions `Game → ... → Option T × Game`, returning both the
  result and the (possibly mutated) game.
* The Rust machine integers `u8` (`halfmoves`) and `u32` (`fullmoves`) are
  modelled as `Nat`, with an explicit `% 256` (resp. `% 4294967296`)
  applied at the increment sites, matching two's-complement wraparound.
* Rust `panic!`/`.expect(..)` sites are modelled by a harmless value
  (documented at each site); none of the theorems below exercise such a
  site.
* The Rust board array `[Option<Piece>; 64]` is a `List (Option Piece)` of
  length 64; `self.board[i]` is `List.getD board i none` (an out-of-range
  index panics in Rust; it can only be reached through a `Position` whose
  `file` field is maliciously out of range, which the theorems below
  exclude).
* The mutual recursion between move generation and check detection is
  bounded in Rust by the `recursion_order` counter tested against
  `MAX_RECURSIONS = 2`.  At run time exactly two strata occur: the public
  entry `get_possible_moves(pos)` passes `recursion_order = 0`, so its
  `try_move` calls run at order 1 and perform the king-safety simulation,
  whose `is_in_check(_, 1)` calls generate opponent moves at order 2,
  where `try_move` skips the simulation.  The embedding defines the two
  strata directly: `tryMoveNoCheck`/`getPossibleMovesNoCheck` (order ≥ 2,
  no king-safety simulation) and `tryMove`/`getPossibleMoves` (order 1,
  with simulation); `isInCheck` is `is_in_check(_, 1)` exactly as invoked
  by `update_game_state` and by `try_move` at order 1.
-/

set_option maxRecDepth 10000

namespace Chess

/-! Kernel-reducible string utilities.  The Lean standard library's
`String.splitOn`, `String.trim`, `String.toLower` and `Nat.repr` recurse
on byte positions (well-founded recursion) and therefore do not reduce
inside the kernel; the concrete witnesses below need evaluation by
`decide`, so the embedding uses the following structurally recursive
equivalents (they agree with the Rust counterparts on every string the
engine produces or the theorems feed in). -/

/-- Decimal digit character. -/
def digitChar (n : Nat) : Char :=
  if n = 0 then '0' else if n = 1 then '1' else if n = 2 then '2'
  else if n = 3 then '3' else if n = 4 then '4' else if n = 5 then '5'
  else if n = 6 then '6' else if n = 7 then '7' else if n = 8 then '8'
  else '9'

/-- Decimal digits of `n`, with structural fuel (10 digits suffice for
every counter the engine keeps: `u8` and `u32` values). -/
def natChars : Nat → Nat → List Char
  | 0, _ => []
  | fuel + 1, n =>
    if n < 10 then [digitChar n]
    else natChars fuel (n / 10) ++ [digitChar (n % 10)]

/-- Decimal rendering of `n` (agrees with Rust's `to_string` for all
values below 10^10). -/
def natToString (n : Nat) : String := String.mk (natChars 10 n)

/-- Split a character list at spaces (agrees with Rust's `split(" ")`). -/
def splitAtSpaces : List Char → List Char → List (List Char)
  | [], cur => [cur.reverse]
  | c :: rest, cur =>
    if c = ' ' then cur.reverse :: splitAtSpaces rest []
    else splitAtSpaces rest (c :: cur)

/-- The space-separated fields of a string. -/
def spaceFields (s : String) : List (List Char) := splitAtSpaces s.data []

/-- ASCII whitespace test (the inputs of interest contain no exotic
Unicode whitespace). -/
def isWsp (c : Char) : Bool := c = ' ' || c = '\t' || c = '\n' || c = '\r'

/-- Trim ASCII whitespace from both ends (agrees with Rust `trim` on
ASCII input). -/
def trimChars (l : List Char) : List Char :=
  ((l.dropWhile isWsp).reverse.dropWhile isWsp).reverse

/-- `GameState` from lib.rs. -/
inductive GameState where
  | InProgress
  | Check
  | WaitingOnPromotionChoice
  | GameOver
deriving DecidableEq, Repr

/-- `GameOverReason` from lib.rs. -/
inductive GameOverReason where
  | Checkmate
  | Stalemate
  | SeventyFiveMoveRule
  | FivefoldRepetitionRule
  | InsufficientMaterial
  | ManualDraw
deriving DecidableEq, Repr

/-- `Colour` from lib.rs. -/
inductive Colour where
  | White
  | Black
deriving DecidableEq, Repr

namespace Colour

/-- `Colour::is_white`. -/
def is_white : Colour → Bool
  | White => true
  | Black => false

/-- `Colour::is_black`. -/
def is_black : Colour → Bool
  | White => false
  | Black => true

/-- `Colour::invert`. -/
def invert : Colour → Colour
  | White => Black
  | Black => White

/-- `Colour::to_char`. -/
def to_char : Colour → Char
  | White => 'w'
  | Black => 'b'

/-- `Colour::pawn_dir`: the rank direction this colour's pawns move. -/
def pawn_dir : Colour → Int
  | White => 1
  | Black => -1

end Colour

/-- `PieceType` from lib.rs. -/
inductive PieceType where
  | King
  | Queen
  | Rook
  | Knight
  | Bishop
  | Pawn
deriving DecidableEq, Repr

namespace PieceType

/-- `PieceType::is_pawn`. -/
def is_pawn : PieceType → Bool
  | Pawn => true
  | _ => false

/-- `PieceType::is_rook`. -/
def is_rook : PieceType → Bool
  | Rook => true
  | _ => false

/-- `PieceType::is_king`. -/
def is_king : PieceType → Bool
  | King => true
  | _ => false

/-- `PieceType::is_bishop`. -/
def is_bishop : PieceType → Bool
  | Bishop => true
  | _ => false

/-- `PieceType::char`: uppercase letter for the piece type. -/
def char : PieceType → Char
  | King => 'K'
  | Queen => 'Q'
  | Rook => 'R'
  | Knight => 'N'
  | Bishop => 'B'
  | Pawn => 'P'

end PieceType

/-- `Piece` from lib.rs. -/
structure Piece where
  piece_type : PieceType
  colour : Colour
deriving DecidableEq, Repr

namespace Piece

/-- `Piece::is_pawn`. -/
def is_pawn (p : Piece) : Bool := p.piece_type.is_pawn

/-- `Piece::is_rook`. -/
def is_rook (p : Piece) : Bool := p.piece_type.is_rook

/-- `Piece::is_king`. -/
def is_king (p : Piece) : Bool := p.piece_type.is_king

/-- `Piece::is_bishop`. -/
def is_bishop (p : Piece) : Bool := p.piece_type.is_bishop

/-- `Piece::is_white`. -/
def is_white (p : Piece) : Bool := p.colour.is_white

/-- `Piece::is_black`. -/
def is_black (p : Piece) : Bool := p.colour.is_black

/-- `Piece::to_char_colourcased`: uppercase for White, lowercase for
Black (lowercasing each of the six uppercase piece letters). -/
def to_char_colourcased (p : Piece) : Char :=
  match p.colour with
  | Colour.White => p.piece_type.char
  | Colour.Black =>
    match p.piece_type with
    | PieceType.King => 'k'
    | PieceType.Queen => 'q'
    | PieceType.Rook => 'r'
    | PieceType.Knight => 'n'
    | PieceType.Bishop => 'b'
    | PieceType.Pawn => 'p'

end Piece

/-- `Position` from lib.rs: rank, file and the derived board index.  The
fields are public in Rust and are not intrinsically bounded. -/
structure Position where
  rank : Nat
  file : Nat
  idx : Nat
deriving DecidableEq, Repr

namespace Position

/-- `Position::NULL`, the sentinel "no position". -/
def NULL : Position := ⟨255, 255, 255⟩

/-- `Position::new(rank, file)`: errors unless `rank < 8 && file < 8`. -/
def new (rank file : Nat) : Option Position :=
  if rank ≥ 8 ∨ file ≥ 8 then none
  else some ⟨rank, file, rank * 8 + file⟩

/-- `Position::new_from_idx(idx)`: errors unless `idx ≤ 63`. -/
def new_from_idx (idx : Nat) : Option Position :=
  if idx > 63 then none
  else some ⟨idx / 8, idx % 8, idx⟩

/-- `Position::idx(rank, file)` (the associated function, not the field). -/
def idxOf (rank file : Nat) : Nat := rank * 8 + file

/-- `Position::parse_str`: parse a two-character string `XF` with `X` a
file letter a–h and `F` a rank digit 1–8, after lowercasing and
trimming.  (Rust lowercases the whole string first; matching each file
letter in both cases is equivalent, since any character other than
a–h/A–H fails the match either way.) -/
def parse_str (s : String) : Option Position :=
  let chars := trimChars s.data
  if chars.length ≠ 2 then none
  else
    let fileChar := chars.getD 0 ' '
    let rankChar := chars.getD 1 ' '
    let file? : Option Nat :=
      if fileChar = 'a' ∨ fileChar = 'A' then some 0
      else if fileChar = 'b' ∨ fileChar = 'B' then some 1
      else if fileChar = 'c' ∨ fileChar = 'C' then some 2
      else if fileChar = 'd' ∨ fileChar = 'D' then some 3
      else if fileChar = 'e' ∨ fileChar = 'E' then some 4
      else if fileChar = 'f' ∨ fileChar = 'F' then some 5
      else if fileChar = 'g' ∨ fileChar = 'G' then some 6
      else if fileChar = 'h' ∨ fileChar = 'H' then some 7
      else none
    let rank? : Option Nat :=
      if rankChar = '1' then some 0
      else if rankChar = '2' then some 1
      else if rankChar = '3' then some 2
      else if rankChar = '4' then some 3
      else if rankChar = '5' then some 4
      else if rankChar = '6' then some 5
      else if rankChar = '7' then some 6
      else if rankChar = '8' then some 7
      else none
    match file?, rank? with
    | some f, some r => Position.new r f
    | _, _ => none

/-- `Position::offset`: clone shifted by `(rank_offset, file_offset)`,
errors if the result leaves the board.  (In Rust this is `offset_self` on
a clone; the failure condition and the new fields are identical.) -/
def offset (p : Position) (rank_offset file_offset : Int) : Option Position :=
  let rank_result : Int := (p.rank : Int) + rank_offset
  let file_result : Int := (p.file : Int) + file_offset
  if rank_result < 0 ∨ rank_result > 7 ∨ file_result < 0 ∨ file_result > 7 then none
  else
    some ⟨rank_result.toNat, file_result.toNat,
          rank_result.toNat * 8 + file_result.toNat⟩

/-- `Position::valid` as a boolean: Rust checks
`self.rank < 8 && self.rank < 8 && self.idx == self.rank * 8 + self.file`
(note: the file bound is *not* checked — the `rank < 8` test is written
twice in the source). -/
def validB (p : Position) : Bool :=
  p.rank < 8 && p.rank < 8 && p.idx == p.rank * 8 + p.file

/-- `Position::to_string`.  `NULL` prints as "-".  A non-`NULL` position
whose `file` exceeds 7 makes Rust panic; that case is modelled as `""`
(no theorem below reaches it). -/
def to_string (p : Position) : String :=
  if p = NULL then "-"
  else
    let fileStr : String :=
      if p.file = 0 then "a"
      else if p.file = 1 then "b"
      else if p.file = 2 then "c"
      else if p.file = 3 then "d"
      else if p.file = 4 then "e"
      else if p.file = 5 then "f"
      else if p.file = 6 then "g"
      else if p.file = 7 then "h"
      else ""
    if p.file ≥ 8 then ""
    else fileStr ++ natToString (p.rank + 1)

/-- Well-formedness of a `Position` value as produced by all of the Rust
constructors: rank and file in range and a consistent index.  (Used as a
hypothesis where Rust's unchecked `file` field could otherwise index the
board out of bounds.) -/
def WellFormed (p : Position) : Prop :=
  p.rank < 8 ∧ p.file < 8 ∧ p.idx = p.rank * 8 + p.file

instance (p : Position) : Decidable p.WellFormed := by
  unfold Position.WellFormed; infer_instance

end Position

/-- `HistoryEntry` from lib.rs. -/
structure HistoryEntry where
  fen : String
  fromSq : String
  toSq : String
  piece_moved : Piece
  piece_captured : Option Piece
deriving DecidableEq, Repr

/-- `Game` from lib.rs.  The board is a list of 64 optional pieces,
index `rank * 8 + file`. -/
structure Game where
  state : GameState
  game_over_reason : Option GameOverReason
  active_colour : Colour
  board : List (Option Piece)
  history : List HistoryEntry
  halfmoves : Nat
  fullmoves : Nat
  en_passant_target : Position
  white_has_right_to_castle_queenside : Bool
  white_has_right_to_castle_kingside : Bool
  black_has_right_to_castle_queenside : Bool
  black_has_right_to_castle_kingside : Bool
deriving DecidableEq, Repr

namespace Game

/-- Shorthand for `self.board[i]` (`List.getD`, see header note). -/
def pieceAt (g : Game) (i : Nat) : Option Piece :=
  g.board.getD i none

/-- `Game::new()`: the standard initial position. -/
def new : Game :=
  let wp : Option Piece := some ⟨PieceType.Pawn, Colour.White⟩
  let bp : Option Piece := some ⟨PieceType.Pawn, Colour.Black⟩
  { state := GameState.InProgress
    game_over_reason := none
    active_colour := Colour.White
    board :=
      [some ⟨PieceType.Rook, Colour.White⟩, some ⟨PieceType.Knight, Colour.White⟩,
       some ⟨PieceType.Bishop, Colour.White⟩, some ⟨PieceType.Queen, Colour.White⟩,
       some ⟨PieceType.King, Colour.White⟩, some ⟨PieceType.Bishop, Colour.White⟩,
       some ⟨PieceType.Knight, Colour.White⟩, some ⟨PieceType.Rook, Colour.White⟩] ++
      [wp, wp, wp, wp, wp, wp, wp, wp] ++
      List.replicate 32 none ++
      [bp, bp, bp, bp, bp, bp, bp, bp] ++
      [some ⟨PieceType.Rook, Colour.Black⟩, some ⟨PieceType.Knight, Colour.Black⟩,
       some ⟨PieceType.Bishop, Colour.Black⟩, some ⟨PieceType.Queen, Colour.Black⟩,
       some ⟨PieceType.King, Colour.Black⟩, some ⟨PieceType.Bishop, Colour.Black⟩,
       some ⟨PieceType.Knight, Colour.Black⟩, some ⟨PieceType.Rook, Colour.Black⟩]
    history := []
    halfmoves := 0
    fullmoves := 0
    en_passant_target := Position.NULL
    white_has_right_to_castle_queenside := true
    white_has_right_to_castle_kingside := true
    black_has_right_to_castle_queenside := true
    black_has_right_to_castle_kingside := true }

/-- `Game::get(pos)`: the occupant, or an error if `pos` is invalid. -/
def get (g : Game) (pos : Position) : Option (Option Piece) :=
  if pos.validB then some (g.pieceAt pos.idx) else none

/-- `Game::find_king(colour)`: index scan 0..63, first king of `colour`. -/
def find_king (g : Game) (colour : Colour) : Option Position :=
  match (List.range 64).find?
      (fun i => match g.pieceAt i with
                | some p => p.is_king && p.colour == colour
                | none => false) with
  | some i => Position.new_from_idx i
  | none => none

/-- `Game::put(pos, piece)`: errors if `pos` is invalid or a second king
of the same colour would be placed. -/
def put (g : Game) (pos : Position) (piece : Piece) : Option Unit × Game :=
  if pos.validB then
    if piece.piece_type = PieceType.King ∧ (g.find_king piece.colour).isSome then
      (none, g)
    else
      (some (), { g with board := g.board.set pos.idx (some piece) })
  else (none, g)

/-- `Game::remove(pos)`: removes and returns the occupant; errors if
`pos` is invalid. -/
def remove (g : Game) (pos : Position) : Option (Option Piece) × Game :=
  if pos.validB then
    (some (g.pieceAt pos.idx), { g with board := g.board.set pos.idx none })
  else (none, g)

/-- One rank of the FEN placement field (files 0..7 of `rank`), given the
running empty-square count entering the rank.  Returns the text produced
and the count still pending at the end of the rank.  (In Rust the counter
lives outside the rank loop but is always flushed at each rank's end.) -/
def fenRankStep (g : Game) (rank : Nat) (startCnt : Nat) : String × Nat :=
  (List.range 8).foldl
    (fun (acc : String × Nat) file =>
      match g.pieceAt (Position.idxOf rank file) with
      | none => (acc.1, acc.2 + 1)
      | some p =>
        ((acc.1 ++ (if acc.2 > 0 then natToString acc.2 else "")).push
           p.to_char_colourcased, 0))
    ("", startCnt)

/-- The FEN placement field: ranks 7 down to 0, '/'-separated, with the
empty count flushed at each rank boundary. -/
def fenPlacement (g : Game) : String :=
  ((List.range 8).reverse.foldl
    (fun (s : String) rank =>
      let (t, cnt) := fenRankStep g rank 0
      s ++ t ++ (if cnt > 0 then natToString cnt else "") ++
        (if rank ≠ 0 then "/" else ""))
    "")

/-- The FEN castling field as the source writes it: 'K' for White
kingside, 'Q' for White queenside, 'k' for Black kingside and — exactly
as in the source — 'Q' (not 'q') for Black queenside; "-" if none. -/
def fenCastlingField (g : Game) : String :=
  let s := (if g.white_has_right_to_castle_kingside then "K" else "") ++
           (if g.white_has_right_to_castle_queenside then "Q" else "") ++
           (if g.black_has_right_to_castle_kingside then "k" else "") ++
           (if g.black_has_right_to_castle_queenside then "Q" else "")
  if s = "" then "-" else s

/-- The FEN en-passant field: included only if some pawn stands on one of
the two probe squares.  The source computes `pos1` and `pos2` with the
*same* offset `(dir, 1)` (the second probe was evidently meant to be
`(dir, -1)`); the embedding reproduces that. -/
def fenEnPassantField (g : Game) : String :=
  if g.en_passant_target ≠ Position.NULL then
    let dir := g.active_colour.pawn_dir * (-1)
    let piece1 : Option Piece :=
      match g.en_passant_target.offset dir 1 with
      | some pos => g.pieceAt pos.idx
      | none => none
    let piece2 : Option Piece :=
      match g.en_passant_target.offset dir 1 with
      | some pos => g.pieceAt pos.idx
      | none => none
    if (match piece1 with | some p => p.is_pawn | none => false) ||
       (match piece2 with | some p => p.is_pawn | none => false) then
      g.en_passant_target.to_string
    else "-"
  else "-"

/-- `Game::fen()`: the six space-separated FEN fields. -/
def fen (g : Game) : String :=
  fenPlacement g ++ " " ++ String.singleton g.active_colour.to_char ++ " " ++
  fenCastlingField g ++ " " ++ fenEnPassantField g ++ " " ++
  natToString g.halfmoves ++ " " ++ natToString g.fullmoves

/-- The comparison both repetition checks perform: the first four
space-separated FEN fields (placement, active colour, castling rights,
en-passant) must agree.  (Rust walks four `split(" ")` items; on the
six-field strings produced by `fen` this is `take 4` on the field
split.) -/
def fenPrefixMatches (f1 f2 : String) : Bool :=
  (spaceFields f1).take 4 == (spaceFields f2).take 4

/-- `Game::is_threefold_repetition()`: at least 2 history entries whose
four-field FEN prefix matches the current position's. -/
def is_threefold_repetition (g : Game) : Bool :=
  2 ≤ (g.history.filter (fun e => fenPrefixMatches e.fen (fen g))).length

/-- `Game::is_fivefold_repetition()`: at least 4 history entries whose
four-field FEN prefix matches the current position's. -/
def is_fivefold_repetition (g : Game) : Bool :=
  4 ≤ (g.history.filter (fun e => fenPrefixMatches e.fen (fen g))).length

/-- `Game::is_50_move_rule()`. -/
def is_50_move_rule (g : Game) : Bool := g.halfmoves ≥ 100

/-- `Game::is_75_move_rule()`. -/
def is_75_move_rule (g : Game) : Bool := g.halfmoves ≥ 150

/-- `Game::is_gameover()`. -/
def is_gameover (g : Game) : Bool := g.state == GameState.GameOver

/-- `Game::is_check()`. -/
def is_check (g : Game) : Bool := g.state == GameState.Check

/-- `Game::is_checkmate()`: the recorded game-over reason is Checkmate. -/
def is_checkmate (g : Game) : Bool :=
  g.game_over_reason == some GameOverReason.Checkmate

/-- `Game::submit_draw()`: unconditionally sets GameOver/ManualDraw. -/
def submit_draw (g : Game) : Game :=
  { g with state := GameState.GameOver
           game_over_reason := some GameOverReason.ManualDraw }

/-- `Game::find_pawn_to_promote()`: scans the active colour's far rank —
but, exactly as in the source (`for file in 0..7`), only files 0–6; a
pawn on the h-file is never found. -/
def find_pawn_to_promote (g : Game) : Option Position :=
  let rank : Nat := match g.active_colour with
    | Colour.White => 7
    | Colour.Black => 0
  match (List.range 7).find?
      (fun file => match g.pieceAt (rank * 8 + file) with
                   | some p => p.is_pawn
                   | none => false) with
  | some file => Position.new rank file
  | none => none

/-- The castling-rights / rook-relocation bookkeeping at the end of
`Game::_perfom_move`, after the piece has been moved:

* a King arriving at index 2/6/58/62 relocates the corresponding rook —
  with, exactly as in the source, the g8 arm (index 62) guarded by
  `black_has_right_to_castle_queenside` — and a King move always revokes
  both of the *active* colour's rights;
* a Rook departing from index 0/7/56/63 revokes that corner's right;
* any *other* mover that captured a rook on index 0/7/56/63 revokes that
  corner's right (this check lives only in the `_default` match arm, so
  King and Rook movers skip it). -/
def castlingBookkeeping (g : Game) (from_pos to_pos : Position)
    (moved_piece : Piece) (captured_piece : Option Piece) : Game :=
  match moved_piece.piece_type with
  | PieceType.King =>
    let g :=
      if to_pos.idx = 2 then
        if g.white_has_right_to_castle_queenside then
          { g with board := (g.board.set 3 (g.pieceAt 0)).set 0 none }
        else g
      else if to_pos.idx = 6 then
        if g.white_has_right_to_castle_kingside then
          { g with board := (g.board.set 5 (g.pieceAt 7)).set 7 none }
        else g
      else if to_pos.idx = 58 then
        if g.black_has_right_to_castle_queenside then
          { g with board := (g.board.set 59 (g.pieceAt 56)).set 56 none }
        else g
      else if to_pos.idx = 62 then
        if g.black_has_right_to_castle_queenside then
          { g with board := (g.board.set 61 (g.pieceAt 63)).set 63 none }
        else g
      else g
    match g.active_colour with
    | Colour.White =>
      { g with white_has_right_to_castle_queenside := false
               white_has_right_to_castle_kingside := false }
    | Colour.Black =>
      { g with black_has_right_to_castle_queenside := false
               black_has_right_to_castle_kingside := false }
  | PieceType.Rook =>
    if from_pos.idx = 0 then { g with white_has_right_to_castle_queenside := false }
    else if from_pos.idx = 7 then { g with white_has_right_to_castle_kingside := false }
    else if from_pos.idx = 56 then { g with black_has_right_to_castle_queenside := false }
    else if from_pos.idx = 63 then { g with black_has_right_to_castle_kingside := false }
    else g
  | _ =>
    if (match captured_piece with | some p => p.is_rook | none => false) then
      if to_pos.idx = 0 then { g with white_has_right_to_castle_queenside := false }
      else if to_pos.idx = 7 then { g with white_has_right_to_castle_kingside := false }
      else if to_pos.idx = 56 then { g with black_has_right_to_castle_queenside := false }
      else if to_pos.idx = 63 then { g with black_has_right_to_castle_kingside := false }
      else g
    else g

/-- `Game::_perfom_move(from_pos, to_pos)` (sic): records history, moves
the piece, updates the halfmove/fullmove counters, handles the en-passant
capture and target, and performs the castling bookkeeping.  The
`.expect("is never called trying to move an empty piece")` and
`.expect("a pawn cannot move backwards")` panic sites are modelled as
error exits (no theorem below reaches them). -/
def perfom_move (g0 : Game) (from_pos to_pos : Position) : Option Unit × Game :=
  match g0.get to_pos with
  | none => (none, g0)
  | some captured_piece =>
    match g0.get from_pos with
    | none => (none, g0)
    | some none => (none, g0)
    | some (some moved_piece) =>
      let g1 : Game :=
        { g0 with history := g0.history ++
            [{ fen := fen g0, fromSq := from_pos.to_string,
               toSq := to_pos.to_string, piece_moved := moved_piece,
               piece_captured := captured_piece }] }
      match g1.remove from_pos with
      | (none, g) => (none, g)
      | (some _, g2) =>
        match g2.put to_pos moved_piece with
        | (none, g) => (none, g)
        | (some _, g3) =>
          let g4 : Game :=
            { g3 with halfmoves :=
                if moved_piece.is_pawn || captured_piece.isSome then 0
                else (g3.halfmoves + 1) % 256 }
          let g5 : Game :=
            if g4.active_colour.is_black then
              { g4 with fullmoves := (g4.fullmoves + 1) % 4294967296 }
            else g4
          if moved_piece.is_pawn then
            let dir := g5.active_colour.pawn_dir
            let afterEp : Option Game :=
              if to_pos = g5.en_passant_target then
                match to_pos.offset (-dir) 0 with
                | none => none
                | some captured_pawn_pos =>
                  match g5.remove captured_pawn_pos with
                  | (none, _) => none
                  | (some _, g) => some g
              else some g5
            match afterEp with
            | none => (none, g5)
            | some g6 =>
              if (to_pos.rank : Int) - (from_pos.rank : Int) = 2 ∨
                 (from_pos.rank : Int) - (to_pos.rank : Int) = 2 then
                match to_pos.offset (-dir) 0 with
                | none => (none, g6)
                | some ep =>
                  let g7 := { g6 with en_passant_target := ep }
                  (some (), castlingBookkeeping g7 from_pos to_pos moved_piece captured_piece)
              else
                let g7 := { g6 with en_passant_target := Position.NULL }
                (some (), castlingBookkeeping g7 from_pos to_pos moved_piece captured_piece)
          else
            let g6 := { g5 with en_passant_target := Position.NULL }
            (some (), castlingBookkeeping g6 from_pos to_pos moved_piece captured_piece)

/-- `Game::is_capture(from_pos, to_pos)`: true on an enemy-occupied
destination, or on the live en-passant target when the mover is a pawn;
errors if either position is invalid or the source is empty. -/
def is_capture (g : Game) (from_pos to_pos : Position) : Option Bool :=
  match g.get from_pos with
  | none => none
  | some none => none
  | some (some p1) =>
    match g.get to_pos with
    | none => none
    | some none => some (to_pos == g.en_passant_target && p1.is_pawn)
    | some (some p2) => some (p1.colour != p2.colour)

/-- The obstruction walk of `Game::try_move`: starting at `cur`, offset
`(rank_step, file_step)` once per remaining step; fail when leaving the
board, when obstructed before the final step, or when the final square
holds a piece of the mover's colour; otherwise return the square
reached. -/
def tryWalk (g : Game) (mover_colour : Colour) (rank_step file_step : Int) :
    Position → Nat → Option Position
  | cur, 0 => some cur
  | cur, k + 1 =>
    match cur.offset rank_step file_step with
    | none => none
    | some nxt =>
      match g.pieceAt nxt.idx with
      | some attacked =>
        if k = 0 then
          if mover_colour = attacked.colour then none else some nxt
        else none
      | none => tryWalk g mover_colour rank_step file_step nxt k

/-- `Game::try_move` at `recursion_order ≥ MAX_RECURSIONS`: only the
obstruction walk, no king-safety simulation.  The Rust panics on an
invalid or empty source square are modelled as `false`. -/
def tryMoveNoCheck (g : Game) (from_pos : Position)
    (rank_step file_step : Int) (steps : Nat) : Bool :=
  if from_pos.validB then
    match g.pieceAt from_pos.idx with
    | none => false
    | some moved_piece =>
      (tryWalk g moved_piece.colour rank_step file_step from_pos steps).isSome
  else false

/-- One single-step direction batch of `_get_possible_moves` (King
non-castling moves and Knight moves): push the offset square whenever the
supplied `try_move` accepts it. -/
def pushSingle (tm : Game → Position → Int → Int → Nat → Bool) (g : Game)
    (pos : Position) : List (Int × Int) → List Position → Option (List Position)
  | [], acc => some acc
  | (rs, fs) :: rest, acc =>
    if tm g pos rs fs 1 then
      match pos.offset rs fs with
      | none => none
      | some np => pushSingle tm g pos rest (acc ++ [np])
    else pushSingle tm g pos rest acc

/-- One sliding direction of `_get_possible_moves` (Queen/Rook/Bishop):
step counts 1..7, stopping at the first rejected step. -/
def slideFrom (tm : Game → Position → Int → Int → Nat → Bool) (g : Game)
    (pos : Position) (rs fs : Int) : Nat → Nat → List Position → Option (List Position)
  | _, 0, acc => some acc
  | s, r + 1, acc =>
    if tm g pos rs fs s then
      match pos.offset (rs * s) (fs * s) with
      | none => none
      | some np => slideFrom tm g pos rs fs (s + 1) r (acc ++ [np])
    else some acc

/-- All sliding directions in order. -/
def slideDirs (tm : Game → Position → Int → Int → Nat → Bool) (g : Game)
    (pos : Position) : List (Int × Int) → List Position → Option (List Position)
  | [], acc => some acc
  | (rs, fs) :: rest, acc =>
    match slideFrom tm g pos rs fs 1 7 acc with
    | none => none
    | some acc => slideDirs tm g pos rest acc

/-- A pawn forward try (`i` = 1 or 2): pushed only when the move is
accepted and is *not* a capture. -/
def pawnForwardStep (tm : Game → Position → Int → Int → Nat → Bool) (g : Game)
    (pos : Position) (dir : Int) (i : Nat) (acc : List Position) :
    Option (List Position) :=
  if tm g pos dir 0 i then
    match pos.offset (dir * i) 0 with
    | none => none
    | some np =>
      match is_capture g pos np with
      | none => none
      | some c => some (if c then acc else acc ++ [np])
  else some acc

/-- A pawn diagonal try (`i` = -1 or 1): pushed only when the move is
accepted and *is* a capture (en passant included). -/
def pawnDiagStep (tm : Game → Position → Int → Int → Nat → Bool) (g : Game)
    (pos : Position) (dir i : Int) (acc : List Position) :
    Option (List Position) :=
  if tm g pos dir i 1 then
    match pos.offset dir i with
    | none => none
    | some np =>
      match is_capture g pos np with
      | none => none
      | some c => some (if c then acc ++ [np] else acc)
  else some acc

/-- The castling section of the King branch of `_get_possible_moves`.
Per colour and side: the corresponding right must be true, the squares
strictly between the king's and rook's home squares must be empty, and
the two `try_move` probes from the *hardcoded* king home square (e1/e8)
one and two files towards the rook must both succeed; the arrival square
(c1/g1/c8/g8) is then pushed. -/
def castlingMoves (tm : Game → Position → Int → Int → Nat → Bool) (g : Game)
    (colour : Colour) (acc : List Position) : List Position :=
  match colour with
  | Colour.White =>
    let king_pos : Position := ⟨0, 4, 4⟩
    let acc :=
      if g.white_has_right_to_castle_queenside then
        if (g.pieceAt 1).isNone ∧ (g.pieceAt 2).isNone ∧ (g.pieceAt 3).isNone then
          if tm g king_pos 0 (-1) 1 && tm g king_pos 0 (-2) 1 then
            acc ++ [⟨0, 2, 2⟩]
          else acc
        else acc
      else acc
    if g.white_has_right_to_castle_kingside then
      if (g.pieceAt 5).isNone ∧ (g.pieceAt 6).isNone then
        if tm g king_pos 0 1 1 && tm g king_pos 0 2 1 then
          acc ++ [⟨0, 6, 6⟩]
        else acc
      else acc
    else acc
  | Colour.Black =>
    let king_pos : Position := ⟨7, 4, 60⟩
    let acc :=
      if g.black_has_right_to_castle_queenside then
        if (g.pieceAt 57).isNone ∧ (g.pieceAt 58).isNone ∧ (g.pieceAt 59).isNone then
          if tm g king_pos 0 (-1) 1 && tm g king_pos 0 (-2) 1 then
            acc ++ [⟨7, 2, 58⟩]
          else acc
        else acc
      else acc
    if g.black_has_right_to_castle_kingside then
      if (g.pieceAt 61).isNone ∧ (g.pieceAt 62).isNone then
        if tm g king_pos 0 1 1 && tm g king_pos 0 2 1 then
          acc ++ [⟨7, 6, 62⟩]
        else acc
      else acc
    else acc

/-- `Game::_get_possible_moves(pos, _)`, parameterized by the `try_move`
in force at the current recursion order.  Errors when `pos` is invalid;
an empty square yields the empty list. -/
def genMovesWith (tm : Game → Position → Int → Int → Nat → Bool) (g : Game)
    (pos : Position) : Option (List Position) :=
  if pos.validB then
    match g.pieceAt pos.idx with
    | none => some []
    | some piece =>
      match piece.piece_type with
      | PieceType.King =>
        match pushSingle tm g pos
            [(1, 1), (1, 0), (1, -1), (0, 1), (0, -1), (-1, 1), (-1, 0), (-1, -1)] [] with
        | none => none
        | some acc => some (castlingMoves tm g piece.colour acc)
      | PieceType.Queen =>
        slideDirs tm g pos
          [(1, 1), (1, 0), (1, -1), (0, 1), (0, -1), (-1, 1), (-1, 0), (-1, -1)] []
      | PieceType.Bishop =>
        slideDirs tm g pos [(1, 1), (1, -1), (-1, 1), (-1, -1)] []
      | PieceType.Knight =>
        pushSingle tm g pos
          [(2, 1), (2, -1), (1, 2), (1, -2), (-1, 2), (-1, -2), (-2, 1), (-2, -1)] []
      | PieceType.Rook =>
        slideDirs tm g pos [(1, 0), (0, 1), (0, -1), (-1, 0)] []
      | PieceType.Pawn =>
        let dir := piece.colour.pawn_dir
        let is_on_first_rank :=
          (piece.is_white && pos.rank == 1) || (piece.is_black && pos.rank == 6)
        match pawnForwardStep tm g pos dir 1 [] with
        | none => none
        | some acc1 =>
          match (if is_on_first_rank then pawnForwardStep tm g pos dir 2 acc1
                 else some acc1) with
          | none => none
          | some acc2 =>
            match pawnDiagStep tm g pos dir (-1) acc2 with
            | none => none
            | some acc3 => pawnDiagStep tm g pos dir 1 acc3
  else none

/-- `_get_possible_moves` as invoked with `recursion_order ≥ 1` (from
`is_in_check`): the inner `try_move`s run at order ≥ 2 and skip the
king-safety simulation. -/
def getPossibleMovesNoCheck (g : Game) (pos : Position) : Option (List Position) :=
  genMovesWith tryMoveNoCheck g pos

/-- `Game::is_in_check(colour, 1)` exactly as invoked by
`update_game_state` and by `try_move` at recursion order 1: some
opposing piece's generated move set (king-safety simulation skipped)
contains `colour`'s king square; `false` when `colour` has no king.
The `.expect("enumerated")` panic sites cannot fire (all 64 indices are
valid) and are modelled by `.getD`. -/
def isInCheck (g : Game) (colour : Colour) : Bool :=
  match g.find_king colour with
  | none => false
  | some king_pos =>
    (List.range 64).any fun i =>
      match g.pieceAt i with
      | some p =>
        p.colour != colour &&
        (match Position.new_from_idx i with
         | some pp => ((getPossibleMovesNoCheck g pp).getD []).any (fun m => m == king_pos)
         | none => false)
      | none => false

/-- `Game::try_move` at recursion order 1 (as called from the public
`get_possible_moves`): the obstruction walk, then the king-safety
simulation — perform the move on a clone, invert the active colour, and
require that the original active colour is not left in check.  The Rust
panics on an invalid or empty source square are modelled as `false`. -/
def tryMove (g : Game) (from_pos : Position)
    (rank_step file_step : Int) (steps : Nat) : Bool :=
  if from_pos.validB then
    match g.pieceAt from_pos.idx with
    | none => false
    | some moved_piece =>
      match tryWalk g moved_piece.colour rank_step file_step from_pos steps with
      | none => false
      | some to_pos =>
        match perfom_move g from_pos to_pos with
        | (none, _) => false
        | (some _, gm) =>
          let gc := { gm with active_colour := gm.active_colour.invert }
          !(isInCheck gc gc.active_colour.invert)
  else false

/-- `Game::get_possible_moves(pos)`: the public entry, recursion order 0
(so its `try_move`s run at order 1 with the king-safety simulation). -/
def get_possible_moves (g : Game) (pos : Position) : Option (List Position) :=
  genMovesWith tryMove g pos

/-- `Game::_can_make_legal_move()`: some piece of the active colour has a
non-empty move set under the public generator. -/
def can_make_legal_move (g : Game) : Bool :=
  (List.range 64).any fun i =>
    match g.pieceAt i with
    | some p =>
      p.colour == g.active_colour &&
      (match Position.new_from_idx i with
       | some pp => !((get_possible_moves g pp).getD []).isEmpty
       | none => false)
    | none => false

/-- The bishop scan of the insufficient-material section: indices
`0..=62` (the source writes `for idx in 0..63`, so index 63 — h8 — is
*not* scanned), tracking the first bishop index found and triggering when
a later bishop index has the same parity (`bishop_loc % 2 == idx % 2`,
i.e. the same *file* parity, not the same square colour). -/
def bishopPairTrigger (g : Game) : Bool :=
  ((List.range 63).foldl
    (fun (st : Nat × Bool) idx =>
      if (match g.pieceAt idx with | some p => p.is_bishop | none => false) then
        if st.1 = 64 then (idx, st.2)
        else if st.1 % 2 = idx % 2 then (st.1, true)
        else st
      else st)
    (64, false)).2

/-- The condition under which the insufficient-material section of
`update_game_state` declares GameOver: fewer than 5 pieces remain and
either bare kings, two kings plus exactly one bishop or knight, or two
kings plus two bishops for which `bishopPairTrigger` fires. -/
def insufficientMaterialTriggered (g : Game) : Bool :=
  let pieces := g.board.filterMap id
  let count := pieces.length
  if count < 5 then
    let kings := (pieces.filter (fun p => p.piece_type == PieceType.King)).length
    let bishops := (pieces.filter (fun p => p.piece_type == PieceType.Bishop)).length
    let knights := (pieces.filter (fun p => p.piece_type == PieceType.Knight)).length
    if (count == 2 && kings == 2) ||
       (count == 3 && kings == 2 && (bishops == 1 || knights == 1)) then true
    else if count == 4 && kings == 2 && bishops == 2 then bishopPairTrigger g
    else false
  else false

/-- `Game::update_game_state()`: the post-move classification.  Called on
a GameOver game Rust panics; that branch (unreachable from the public
surface, whose callers check the state first) is modelled as the
identity.  Order of business, exactly as in the source: promotion
pending → WaitingOnPromotionChoice (stop, colour not yet switched);
otherwise switch the active colour, then fivefold repetition,
insufficient material, check/checkmate/check/stalemate/in-progress (a
Check verdict also revokes both of the newly active colour's castling
rights), and finally — unless the reason just recorded is Checkmate — the
75-move rule, which *overwrites* the state and reason when
`halfmoves ≥ 150`. -/
def update_game_state (g : Game) : Game :=
  if g.is_gameover then g
  else if (g.find_pawn_to_promote).isSome then
    { g with state := GameState.WaitingOnPromotionChoice }
  else
    let g := { g with active_colour := g.active_colour.invert }
    if g.is_fivefold_repetition then
      { g with state := GameState.GameOver
               game_over_reason := some GameOverReason.FivefoldRepetitionRule }
    else if insufficientMaterialTriggered g then
      { g with state := GameState.GameOver
               game_over_reason := some GameOverReason.InsufficientMaterial }
    else
      let g2 :=
        if isInCheck g g.active_colour then
          if can_make_legal_move g then
            if g.active_colour.is_white then
              { g with state := GameState.Check
                       white_has_right_to_castle_queenside := false
                       white_has_right_to_castle_kingside := false }
            else
              { g with state := GameState.Check
                       black_has_right_to_castle_queenside := false
                       black_has_right_to_castle_kingside := false }
          else
            { g with state := GameState.GameOver
                     game_over_reason := some GameOverReason.Checkmate }
        else
          if can_make_legal_move g then { g with state := GameState.InProgress }
          else
            { g with state := GameState.GameOver
                     game_over_reason := some GameOverReason.Stalemate }
      if !g2.is_checkmate && g2.halfmoves ≥ 150 then
        { g2 with state := GameState.GameOver
                  game_over_reason := some GameOverReason.SeventyFiveMoveRule }
      else g2

/-- `Game::make_move_pos(from_pos, to_pos)`: reject unless the state is
InProgress or Check, both positions are valid, the source holds a piece
of the active colour and the destination is in the generated move set;
otherwise perform the move and rerun the classification. -/
def make_move_pos (g : Game) (from_pos to_pos : Position) : Option GameState × Game :=
  if ¬(g.state = GameState.InProgress ∨ g.state = GameState.Check) then (none, g)
  else if ¬from_pos.validB then (none, g)
  else if ¬to_pos.validB then (none, g)
  else
    match g.pieceAt from_pos.idx with
    | none => (none, g)
    | some piece =>
      if piece.colour ≠ g.active_colour then (none, g)
      else
        match get_possible_moves g from_pos with
        | none => (none, g)
        | some possible_moves =>
          if ¬(possible_moves.any (fun p => p == to_pos)) then (none, g)
          else
            match perfom_move g from_pos to_pos with
            | (none, g') => (none, g')
            | (some _, g') =>
              let g'' := update_game_state g'
              (some g''.state, g'')

/-- `Game::make_move(from_str, to_str)`: parse both squares, then
`make_move_pos`. -/
def make_move (g : Game) (from_str to_str : String) : Option GameState × Game :=
  match Position.parse_str from_str with
  | none => (none, g)
  | some fp =>
    match Position.parse_str to_str with
    | none => (none, g)
    | some tp => make_move_pos g fp tp

/-- `Game::set_promotion(piece_type)`: reject unless waiting on a
promotion choice and the type is neither King nor Pawn; otherwise replace
the pawn found by `find_pawn_to_promote`, invert the active colour, and
rerun the classification (which inverts the colour once more). -/
def set_promotion (g : Game) (piece_type : PieceType) : Option GameState × Game :=
  if g.state ≠ GameState.WaitingOnPromotionChoice then (none, g)
  else if piece_type = PieceType.King then (none, g)
  else if piece_type = PieceType.Pawn then (none, g)
  else
    match g.find_pawn_to_promote with
    | none => (none, g)
    | some pos =>
      match g.put pos ⟨piece_type, g.active_colour⟩ with
      | (none, g') => (none, g')
      | (some _, g') =>
        let g'' := update_game_state
          { g' with active_colour := g'.active_colour.invert }
        (some g''.state, g'')

end Game

/-! Concrete positions used by witnesses and counterexamples. -/

/-- Build a 64-slot board from an index/piece association list. -/
def boardOf (ps : List (Nat × Piece)) : List (Option Piece) :=
  (List.range 64).map (fun i => (ps.find? (fun q => q.1 == i)).map (fun q => q.2))

/-- A game in progress with the given pieces, active colour, castling
rights and halfmove clock (no history, no en-passant target). -/
def mkGame (ps : List (Nat × Piece)) (active : Colour)
    (wq wk bq bk : Bool) (hm : Nat) : Game :=
  { state := GameState.InProgress
    game_over_reason := none
    active_colour := active
    board := boardOf ps
    history := []
    halfmoves := hm
    fullmoves := 0
    en_passant_target := Position.NULL
    white_has_right_to_castle_queenside := wq
    white_has_right_to_castle_kingside := wk
    black_has_right_to_castle_queenside := bq
    black_has_right_to_castle_kingside := bk }

def whiteKing : Piece := ⟨PieceType.King, Colour.White⟩
def whiteQueen : Piece := ⟨PieceType.Queen, Colour.White⟩
def whiteRook : Piece := ⟨PieceType.Rook, Colour.White⟩
def whiteBishop : Piece := ⟨PieceType.Bishop, Colour.White⟩
def whiteKnight : Piece := ⟨PieceType.Knight, Colour.White⟩
def whitePawn : Piece := ⟨PieceType.Pawn, Colour.White⟩
def blackKing : Piece := ⟨PieceType.King, Colour.Black⟩
def blackRook : Piece := ⟨PieceType.Rook, Colour.Black⟩
def blackBishop : Piece := ⟨PieceType.Bishop, Colour.Black⟩
def blackKnight : Piece := ⟨PieceType.Knight, Colour.Black⟩

/-- White Kb6 (41) and Qc7 (50) versus black Ka8 (56): after White's
colour is switched out, Black is stalemated; halfmove clock at 150. -/
def stalemateAt150 : Game :=
  mkGame [(41, whiteKing), (50, whiteQueen), (56, blackKing)]
    Colour.White false false false false 150

/-- White pawn h7 (55) about to promote on h8 (63); kings e1/e8. -/
def hFilePromotionGame : Game :=
  mkGame [(55, whitePawn), (4, whiteKing), (60, blackKing)]
    Colour.White false false false false 0

/-- Black Ke8 (60) and Rh8 (63), kingside right only (queenside already
revoked); White Ke1.  Black to castle kingside. -/
def blackKingsideCastleGame : Game :=
  mkGame [(4, whiteKing), (60, blackKing), (63, blackRook)]
    Colour.Black false false false true 0

/-- White Ke1 (4) and Ra1 (0) with the queenside right, black Re8 (60)
attacking e1 down the open e-file, black Kh8 (63). -/
def castleWhileCheckedGame : Game :=
  mkGame [(4, whiteKing), (0, whiteRook), (60, blackRook), (63, blackKing)]
    Colour.White true false false false 0

/-- Kings e1/e8 with a white bishop on a1 (dark square) and a black
bishop on a2 (light square): opposite square colours, equal index
parity. -/
def oppositeBishopsGame : Game :=
  mkGame [(4, whiteKing), (0, whiteBishop), (8, blackBishop), (60, blackKing)]
    Colour.White false false false false 0

/-- Kings and rooks on e1/a1/e8/a8 with only White's queenside right. -/
def whiteQueensideOnlyGame : Game :=
  mkGame [(4, whiteKing), (0, whiteRook), (60, blackKing), (56, blackRook)]
    Colour.White true false false false 0

/-- The same board and active colour with only Black's queenside right. -/
def blackQueensideOnlyGame : Game :=
  mkGame [(4, whiteKing), (0, whiteRook), (60, blackKing), (56, blackRook)]
    Colour.White false false true false 0

/-- `whiteQueensideOnlyGame` whose history holds four snapshots of
`blackQueensideOnlyGame`'s FEN. -/
def repetitionCollisionGame : Game :=
  { whiteQueensideOnlyGame with
      history := List.replicate 4
        ⟨Game.fen blackQueensideOnlyGame, "a1", "a1", whiteRook, none⟩ }

/-- White Ra1 (0) and Ke1 (4) versus black Ra8 (56), Nb8 (57), Ke8 (60),
all four castling rights standing; White plays Ra1xa8. -/
def rookTakesRookGame : Game :=
  mkGame [(0, whiteRook), (4, whiteKing), (56, blackRook), (57, blackKnight),
          (60, blackKing)]
    Colour.White true true true true 0

/-- White Nb6 (41) and Ke1 versus black Ra8 (56) and Ke8 (60): a knight
(neither King nor Rook) captures the a8 rook. -/
def knightTakesRookGame : Game :=
  mkGame [(41, whiteKnight), (4, whiteKing), (56, blackRook), (60, blackKing)]
    Colour.White true true true true 0

/-- A finished game whose recorded reason is Checkmate. -/
def checkmatedGame : Game :=
  { Game.new with state := GameState.GameOver
                  game_over_reason := some GameOverReason.Checkmate }

def a1Pos : Position := ⟨0, 0, 0⟩
def c1Pos : Position := ⟨0, 2, 2⟩
def d1Pos : Position := ⟨0, 3, 3⟩
def e1Pos : Position := ⟨0, 4, 4⟩
def e3Pos : Position := ⟨2, 4, 20⟩
def e4Pos : Position := ⟨3, 4, 28⟩
def b6Pos : Position := ⟨5, 1, 41⟩
def h7Pos : Position := ⟨6, 7, 55⟩
def a8Pos : Position := ⟨7, 0, 56⟩
def e8Pos : Position := ⟨7, 4, 60⟩
def g8Pos : Position := ⟨7, 6, 62⟩
def h8Pos : Position := ⟨7, 7, 63⟩

/-- The square colour of a board square, as the claims define it:
`(rank + file) % 2`. -/
def squareColour (rank file : Nat) : Nat := (rank + file) % 2

/-- The rejection conditions `make_move_pos` enumerates: wrong state,
invalid source or destination square, empty source, source held by the
non-active colour, or destination not in the generated legal set. -/
def RejectedSubmission (g : Game) (from_pos to_pos : Position) : Prop :=
  ¬(g.state = GameState.InProgress ∨ g.state = GameState.Check) ∨
  ¬from_pos.validB = true ∨
  ¬to_pos.validB = true ∨
  g.pieceAt from_pos.idx = none ∨
  (∃ p, g.pieceAt from_pos.idx = some p ∧ p.colour ≠ g.active_colour) ∨
  (∀ l, Game.get_possible_moves g from_pos = some l →
    l.any (fun p => p == to_pos) = false)

/-- The king-safety simulation of `try_move` at recursion order 1, as a
function of the destination square: perform the move on a clone, invert
the clone's active colour, and require that the colour that was active
before the inversion is not in check; a failing `_perfom_move` rejects. -/
def simulationKeepsKingSafe (g : Game) (from_pos to_pos : Position) : Bool :=
  match Game.perfom_move g from_pos to_pos with
  | (none, _) => false
  | (some _, gm) =>
    let gc := { gm with active_colour := gm.active_colour.invert }
    !(Game.isInCheck gc gc.active_colour.invert)

/-- The castling-rights flag guarding the rook home square `idx`
(a1 = 0, h1 = 7, a8 = 56, h8 = 63). -/
def cornerRight (g : Game) (idx : Nat) : Bool :=
  if idx = 0 then g.white_has_right_to_castle_queenside
  else if idx = 7 then g.white_has_right_to_castle_kingside
  else if idx = 56 then g.black_has_right_to_castle_queenside
  else g.black_has_right_to_castle_kingside

/-- The halfmove-clock invariant maintained by every public operation:
the clock never exceeds 150, a game accepting moves (InProgress/Check)
has clock strictly below 150, and a game that is not over never records
Checkmate as its reason. -/
def ClockInvariant (g : Game) : Prop :=
  g.halfmoves ≤ 150 ∧
  ((g.state = GameState.InProgress ∨ g.state = GameState.Check) →
    g.halfmoves < 150) ∧
  (g.state ≠ GameState.GameOver →
    g.game_over_reason ≠ some GameOverReason.Checkmate)

/-- The games reachable from `Game::new()` through the public mutating
surface: `make_move`, `make_move_pos`, `set_promotion`, `submit_draw`. -/
inductive Reachable : Game → Prop where
  | new : Reachable Game.new
  | make_move (g : Game) (s1 s2 : String) :
      Reachable g → Reachable (Game.make_move g s1 s2).2
  | make_move_pos (g : Game) (fp tp : Position) :
      Reachable g → Reachable (Game.make_move_pos g fp tp).2
  | set_promotion (g : Game) (pt : PieceType) :
      Reachable g → Reachable (Game.set_promotion g pt).2
  | submit_draw (g : Game) :
      Reachable g → Reachable (Game.submit_draw g)

/-! Theorems. -/

/-- C2 (counterexample): in `stalemateAt150` the side to move after the
colour switch (Black) is not in check and has no legal move — a
stalemate position — and the halfmove clock stands at 150; yet the
post-move classification records SeventyFiveMoveRule, not Stalemate, so
stalemate does *not* take precedence over the 75-move rule as the claim
states. -/
theorem stalemate_overridden_by_seventyfive_rule :
    stalemateAt150.halfmoves = 150 ∧
    Game.isInCheck { stalemateAt150 with active_colour := Colour.Black }
      Colour.Black = false ∧
    Game.can_make_legal_move { stalemateAt150 with active_colour := Colour.Black }
      = false ∧
    (Game.update_game_state stalemateAt150).state = GameState.GameOver ∧
    (Game.update_game_state stalemateAt150).game_over_reason =
      some GameOverReason.SeventyFiveMoveRule := by
  decide

/-- C3 (code bug): a white pawn moving h7–h8 reaches White's farthest
rank, but the completed move leaves the game InProgress — not
WaitingOnPromotionChoice — with the pawn still standing on h8, because
`find_pawn_to_promote` scans files 0–6 only. -/
theorem h_file_promotion_not_detected :
    hFilePromotionGame.pieceAt 55 = some whitePawn ∧
    (Game.make_move_pos hFilePromotionGame h7Pos h8Pos).1 =
      some GameState.InProgress ∧
    (Game.make_move_pos hFilePromotionGame h7Pos h8Pos).2.pieceAt 63 =
      some whitePawn ∧
    (Game.make_move_pos hFilePromotionGame h7Pos h8Pos).2.state ≠
      GameState.WaitingOnPromotionChoice ∧
    Game.find_pawn_to_promote
      (Game.make_move_pos hFilePromotionGame h7Pos h8Pos).2 = none := by
  decide

/-- C4 (code bug): Black castles kingside (e8 to g8, accepted by the
move generator since the kingside right is true) while the *queenside*
right is already false; the h8 rook is not relocated to f8 — it stays on
h8 and f8 remains empty — because the g8 arm of `_perfom_move` guards
the rook relocation on `black_has_right_to_castle_queenside`.  Both
black rights are revoked as the claim states, but the rook relocation
fails. -/
theorem black_kingside_castle_rook_stays :
    blackKingsideCastleGame.pieceAt 60 = some blackKing ∧
    blackKingsideCastleGame.pieceAt 63 = some blackRook ∧
    blackKingsideCastleGame.black_has_right_to_castle_kingside = true ∧
    (Game.make_move_pos blackKingsideCastleGame e8Pos g8Pos).1 =
      some GameState.InProgress ∧
    (Game.make_move_pos blackKingsideCastleGame e8Pos g8Pos).2.pieceAt 62 =
      some blackKing ∧
    (Game.make_move_pos blackKingsideCastleGame e8Pos g8Pos).2.pieceAt 63 =
      some blackRook ∧
    (Game.make_move_pos blackKingsideCastleGame e8Pos g8Pos).2.pieceAt 61 =
      none ∧
    (Game.make_move_pos blackKingsideCastleGame e8Pos g8Pos).2.black_has_right_to_castle_kingside
      = false ∧
    (Game.make_move_pos blackKingsideCastleGame e8Pos g8Pos).2.black_has_right_to_castle_queenside
      = false := by
  decide

/-- C5 (counterexample): in `castleWhileCheckedGame` White's king on its
current square e1 *is* attacked (the black rook on e8 gives check), yet
the generated move set of the king still contains the queenside castling
arrival square c1 — castling is offered while the king's current square
is attacked, contradicting the claim. -/
theorem castling_offered_while_king_attacked :
    Game.isInCheck castleWhileCheckedGame Colour.White = true ∧
    castleWhileCheckedGame.pieceAt 4 = some whiteKing ∧
    ((Game.get_possible_moves castleWhileCheckedGame e1Pos).getD []).any
      (fun m => m == c1Pos) = true := by
  decide

/-- C6 (code bug): `oppositeBishopsGame` has exactly two kings and two
bishops, the bishops standing on a1 and a2 — squares of *opposite*
colours by the (rank+file)-parity definition — yet the classification
declares GameOver with reason InsufficientMaterial, because the source
compares `idx % 2` (file parity) instead of square colour. -/
theorem opposite_coloured_bishops_declared_insufficient :
    oppositeBishopsGame.pieceAt 0 = some whiteBishop ∧
    oppositeBishopsGame.pieceAt 8 = some blackBishop ∧
    squareColour 0 0 ≠ squareColour 1 0 ∧
    (oppositeBishopsGame.board.filterMap id).length = 4 ∧
    (Game.update_game_state oppositeBishopsGame).state = GameState.GameOver ∧
    (Game.update_game_state oppositeBishopsGame).game_over_reason =
      some GameOverReason.InsufficientMaterial := by
  decide

/-- C7 (code bug): two positions identical except for their castling
rights — White-queenside-only versus Black-queenside-only — produce the
same FEN castling field "Q" (the source pushes 'Q', not 'q', for the
black queenside right), hence identical four-field repetition
fingerprints; with four such snapshots in the history the fivefold
repetition test fires, so positions with different castling rights *are*
counted as the same fingerprint. -/
theorem castling_rights_fingerprint_collision :
    whiteQueensideOnlyGame.white_has_right_to_castle_queenside = true ∧
    whiteQueensideOnlyGame.black_has_right_to_castle_queenside = false ∧
    blackQueensideOnlyGame.white_has_right_to_castle_queenside = false ∧
    blackQueensideOnlyGame.black_has_right_to_castle_queenside = true ∧
    whiteQueensideOnlyGame.board = blackQueensideOnlyGame.board ∧
    whiteQueensideOnlyGame.active_colour = blackQueensideOnlyGame.active_colour ∧
    Game.fenCastlingField whiteQueensideOnlyGame = "Q" ∧
    Game.fenCastlingField blackQueensideOnlyGame = "Q" ∧
    Game.fenPrefixMatches (Game.fen whiteQueensideOnlyGame)
      (Game.fen blackQueensideOnlyGame) = true ∧
    repetitionCollisionGame.history.length = 4 ∧
    repetitionCollisionGame.history.all
      (fun e => e.fen == Game.fen blackQueensideOnlyGame) = true ∧
    Game.is_fivefold_repetition repetitionCollisionGame = true := by
  decide

/-- C8 (counterexample): White's rook on a1 captures the black rook
standing on its home square a8; the move is accepted and completed, yet
Black's queenside castling right remains true afterwards — the
captured-corner revocation is skipped because the mover is a Rook. -/
theorem rook_capture_keeps_corner_right :
    rookTakesRookGame.pieceAt 0 = some whiteRook ∧
    rookTakesRookGame.pieceAt 56 = some blackRook ∧
    rookTakesRookGame.black_has_right_to_castle_queenside = true ∧
    (Game.make_move_pos rookTakesRookGame a1Pos a8Pos).1 =
      some GameState.InProgress ∧
    (Game.make_move_pos rookTakesRookGame a1Pos a8Pos).2.pieceAt 56 =
      some whiteRook ∧
    (Game.make_move_pos rookTakesRookGame a1Pos a8Pos).2.black_has_right_to_castle_queenside
      = true := by
  decide

/-- C9 (counterexample): on a game already over with recorded reason
Checkmate, `submit_draw` still executes and *overwrites* the recorded
game-over reason with ManualDraw, contradicting the claim that it leaves
the reason of an already-ended game unchanged. -/
theorem submit_draw_overwrites_reason :
    checkmatedGame.state = GameState.GameOver ∧
    checkmatedGame.game_over_reason = some GameOverReason.Checkmate ∧
    (Game.submit_draw checkmatedGame).game_over_reason =
      some GameOverReason.ManualDraw ∧
    (Game.submit_draw checkmatedGame).game_over_reason ≠
      checkmatedGame.game_over_reason := by
  decide

/-! Shared helper lemmas. -/

/-- A failing `put` leaves the game unchanged. -/
theorem put_err_eq (g : Game) (pos : Position) (p : Piece)
    (h : (Game.put g pos p).1 = none) : (Game.put g pos p).2 = g := by
  unfold Game.put at *
  split_ifs at * <;> simp_all


/-- `put` never touches the state, reason or halfmove clock. -/
theorem put_state (g : Game) (pos : Position) (p : Piece) :
    (Game.put g pos p).2.state = g.state ∧
    (Game.put g pos p).2.game_over_reason = g.game_over_reason ∧
    (Game.put g pos p).2.halfmoves = g.halfmoves := by
  unfold Game.put
  split_ifs <;> simp


/-- The castling bookkeeping never touches the game state. -/
theorem cb_state (g : Game) (f t : Position) (p : Piece) (c : Option Piece) :
    (Game.castlingBookkeeping g f t p c).state = g.state := by
  unfold Game.castlingBookkeeping
  dsimp only
  repeat' split
  all_goals rfl


/-- The castling bookkeeping never touches the game-over reason. -/
theorem cb_reason (g : Game) (f t : Position) (p : Piece) (c : Option Piece) :
    (Game.castlingBookkeeping g f t p c).game_over_reason = g.game_over_reason := by
  unfold Game.castlingBookkeeping
  dsimp only
  repeat' split
  all_goals rfl


/-- The castling bookkeeping never touches the halfmove clock. -/
theorem cb_halfmoves (g : Game) (f t : Position) (p : Piece) (c : Option Piece) :
    (Game.castlingBookkeeping g f t p c).halfmoves = g.halfmoves := by
  unfold Game.castlingBookkeeping
  dsimp only
  repeat' split
  all_goals rfl


set_option maxHeartbeats 2000000 in
/-- `_perfom_move` never touches the state or game-over reason, and the
halfmove clock afterwards is unchanged, reset to zero, or — only on a
successfully completed move — incremented (with the `u8` wraparound
written out). -/
theorem perfom_move_fields (g : Game) (f t : Position) :
    (Game.perfom_move g f t).2.state = g.state ∧
    (Game.perfom_move g f t).2.game_over_reason = g.game_over_reason ∧
    ((Game.perfom_move g f t).2.halfmoves = g.halfmoves ∨
     (Game.perfom_move g f t).2.halfmoves = 0 ∨
     ((Game.perfom_move g f t).1 = some () ∧
      (Game.perfom_move g f t).2.halfmoves = (g.halfmoves + 1) % 256)) := by
  unfold Game.perfom_move
  cases hgt : g.get t with
  | none => simp
  | some captured =>
    cases hgf : g.get f with
    | none => simp
    | some mo =>
      cases mo with
      | none => simp
      | some moved =>
        have hfv : f.validB = true := by
          unfold Game.get at hgf
          by_cases h : f.validB
          · exact h
          · rw [if_neg h] at hgf; exact Option.noConfusion hgf
        have htv : t.validB = true := by
          unfold Game.get at hgt
          by_cases h : t.validB
          · exact h
          · rw [if_neg h] at hgt; exact Option.noConfusion hgt
        simp only [Game.remove, Game.put, hfv, htv, if_true, ite_true]
        by_cases hking : moved.piece_type = PieceType.King
        all_goals by_cases hpawncap : (moved.is_pawn || captured.isSome) = true
        all_goals by_cases hblack : g.active_colour.is_black = true
        all_goals by_cases hpawn : moved.is_pawn = true
        all_goals
          simp only [hking, hpawncap, hblack, hpawn, if_true, if_false,
            ite_true, ite_false, Bool.false_eq_true, reduceIte, true_and,
            false_and, and_true, and_false]
        all_goals repeat' first | split | split_ifs at *
        all_goals subst_eqs
        all_goals try simp_all [cb_state, cb_reason, cb_halfmoves]
        all_goals try (rename_i heq
                       repeat' split at heq)
        all_goals subst_eqs
        all_goals try simp_all [cb_state, cb_reason, cb_halfmoves]
        all_goals try (rename_i heq
                       repeat' split at heq)
        all_goals subst_eqs
        all_goals try simp_all [cb_state, cb_reason, cb_halfmoves]


/-- `update_game_state` restores the clock invariant whenever it is
called on a not-yet-over game whose clock is within bounds and whose
recorded reason is not Checkmate: every exit either ends the game or
leaves the clock strictly below 150, because the final 75-move clause
overwrites any non-Checkmate verdict at clock ≥ 150. -/
theorem update_inv (g : Game)
    (ha : g.halfmoves ≤ 150)
    (hr : g.game_over_reason ≠ some GameOverReason.Checkmate)
    (hs : g.state ≠ GameState.GameOver) :
    ClockInvariant (Game.update_game_state g) := by
  have hgo : Game.is_gameover g = false := by
    simp [Game.is_gameover, hs]
  unfold Game.update_game_state ClockInvariant
  rw [hgo]
  simp only [Bool.false_eq_true, if_false]
  by_cases hpp : (Game.find_pawn_to_promote g).isSome
  · simp [hpp, ha, hr]
  · simp only [hpp, if_false, ite_false, Bool.false_eq_true]
    by_cases hff : Game.is_fivefold_repetition { g with active_colour := g.active_colour.invert }
    · simp [hff, ha]
    · by_cases hins : Game.insufficientMaterialTriggered { g with active_colour := g.active_colour.invert }
      · simp [hff, hins, ha]
      · by_cases hchk : Game.isInCheck { g with active_colour := g.active_colour.invert } (g.active_colour.invert)
        · by_cases hmv : Game.can_make_legal_move { g with active_colour := g.active_colour.invert }
          · by_cases hw : (g.active_colour.invert).is_white = true
            · by_cases h150 : g.halfmoves ≥ 150
              · simp [hff, hins, hchk, hmv, hw, h150, Game.is_checkmate, hr, ha]
              · simp [hff, hins, hchk, hmv, hw, h150, Game.is_checkmate, hr, ha] <;> omega
            · by_cases h150 : g.halfmoves ≥ 150
              · simp [hff, hins, hchk, hmv, hw, h150, Game.is_checkmate, hr, ha]
              · simp [hff, hins, hchk, hmv, hw, h150, Game.is_checkmate, hr, ha] <;> omega
          · first
              | (simp [hff, hins, hchk, hmv, Game.is_checkmate, ha]; done)
              | (simp only [hff, hins, hchk, hmv, Bool.false_eq_true, if_false,
                   ite_false]
                 split_ifs <;> simp [Game.is_checkmate, ha])
        · by_cases hmv : Game.can_make_legal_move { g with active_colour := g.active_colour.invert }
          · by_cases h150 : g.halfmoves ≥ 150
            · simp [hff, hins, hchk, hmv, h150, Game.is_checkmate, hr, ha]
            · simp [hff, hins, hchk, hmv, h150, Game.is_checkmate, hr, ha] <;> omega
          · first
              | (simp [hff, hins, hchk, hmv, Game.is_checkmate, ha]; done)
              | (simp only [hff, hins, hchk, hmv, Bool.false_eq_true, if_false,
                   ite_false]
                 split_ifs <;> simp [Game.is_checkmate, ha])


/-- `make_move_pos` preserves the clock invariant. -/
theorem make_move_pos_inv (g : Game) (fp tp : Position)
    (h : ClockInvariant g) : ClockInvariant (Game.make_move_pos g fp tp).2 := by
  unfold Game.make_move_pos
  by_cases h1 : (g.state = GameState.InProgress ∨ g.state = GameState.Check)
  · by_cases h2 : fp.validB
    · by_cases h3 : tp.validB
      · cases h4 : g.pieceAt fp.idx with
        | none => simpa [h1, h2, h3, h4] using h
        | some p =>
          by_cases h5 : p.colour = g.active_colour
          · cases h6 : Game.get_possible_moves g fp with
            | none => simpa [h1, h2, h3, h4, h5, h6] using h
            | some l =>
              by_cases h7 : l.any (fun q => q == tp)
              · simp only [h1, h2, h3, h4, h5, h6, h7, if_true, ite_true,
                  not_true, if_false, ite_false, ne_eq, not_false_iff]
                obtain ⟨hst, hrs, hhm⟩ := perfom_move_fields g fp tp
                have hhm150 : g.halfmoves < 150 := h.2.1 h1
                have hsne : g.state ≠ GameState.GameOver := by
                  rcases h1 with h1 | h1 <;> simp [h1]
                cases hperf : Game.perfom_move g fp tp with
                | mk r g' =>
                  rw [hperf] at hst hrs hhm
                  cases r with
                  | none =>
                    simp only [hperf]
                    refine ⟨?_, ?_, ?_⟩
                    · rcases hhm with hh | hh | ⟨hcontra, _⟩
                      · rw [hh]; exact h.1
                      · rw [hh]; exact Nat.zero_le _
                      · exact Option.noConfusion hcontra
                    · intro hstate
                      rcases hhm with hh | hh | ⟨hcontra, _⟩
                      · rw [hh]; exact h.2.1 (by rw [hst] at hstate; exact hstate)
                      · rw [hh]; omega
                      · exact Option.noConfusion hcontra
                    · intro _
                      rw [hrs]
                      exact h.2.2 hsne
                  | some u =>
                    simp only [hperf]
                    apply update_inv
                    · rcases hhm with hh | hh | ⟨_, hh⟩
                      · rw [hh]; exact h.1
                      · rw [hh]; exact Nat.zero_le _
                      · rw [hh, Nat.mod_eq_of_lt (by omega)]; omega
                    · rw [hrs]; exact h.2.2 hsne
                    · rw [hst]; exact hsne
              · simpa [h1, h2, h3, h4, h5, h6, h7] using h
          · simpa [h1, h2, h3, h4, h5] using h
      · simpa [h1, h2, h3] using h
    · simpa [h1, h2] using h
  · simpa [h1] using h


/-- `make_move` preserves the clock invariant. -/
theorem make_move_inv (g : Game) (s1 s2 : String)
    (h : ClockInvariant g) : ClockInvariant (Game.make_move g s1 s2).2 := by
  unfold Game.make_move
  cases Position.parse_str s1 with
  | none => exact h
  | some fp =>
    cases Position.parse_str s2 with
    | none => exact h
    | some tp => exact make_move_pos_inv g fp tp h


/-- `set_promotion` preserves the clock invariant. -/
theorem set_promotion_inv (g : Game) (pt : PieceType)
    (h : ClockInvariant g) : ClockInvariant (Game.set_promotion g pt).2 := by
  unfold Game.set_promotion
  by_cases hs : g.state = GameState.WaitingOnPromotionChoice
  · by_cases hk : pt = PieceType.King
    · simpa [hs, hk] using h
    · by_cases hp : pt = PieceType.Pawn
      · simpa [hs, hk, hp] using h
      · cases hf : Game.find_pawn_to_promote g with
        | none => simpa [hs, hk, hp, hf] using h
        | some pos =>
          cases hput : Game.put g pos ⟨pt, g.active_colour⟩ with
          | mk r g' =>
            obtain ⟨hpst, hprs, hphm⟩ := put_state g pos ⟨pt, g.active_colour⟩
            rw [hput] at hpst hprs hphm
            cases r with
            | none =>
              have heq : g' = g := by
                have := put_err_eq g pos ⟨pt, g.active_colour⟩ (by rw [hput])
                rw [hput] at this
                exact this
              simpa [hs, hk, hp, hf, hput, heq] using h
            | some u =>
              simp only [hs, hk, hp, hf, hput, if_false, ite_false, not_true,
                ne_eq, not_false_iff, ite_true, if_true]
              apply update_inv
              · rw [hphm]; exact h.1
              · rw [hprs]; exact h.2.2 (by rw [hs]; exact fun hc => GameState.noConfusion hc)
              · rw [hpst, hs]; exact fun hc => GameState.noConfusion hc
  · simpa [hs] using h


/-- `submit_draw` preserves the clock invariant. -/
theorem submit_draw_inv (g : Game) (h : ClockInvariant g) :
    ClockInvariant (Game.submit_draw g) := by
  exact ⟨h.1, by simp [Game.submit_draw], by simp [Game.submit_draw]⟩


/-- Every reachable game satisfies the clock invariant. -/
theorem reachable_inv (g : Game) (h : Reachable g) : ClockInvariant g := by
  induction h with
  | new =>
    unfold ClockInvariant
    exact ⟨by decide, fun hs => by decide, fun hs => by decide⟩
  | make_move g' s1 s2 _ ih => exact make_move_inv g' s1 s2 ih
  | make_move_pos g' fp tp _ ih => exact make_move_pos_inv g' fp tp ih
  | set_promotion g' pt _ ih => exact set_promotion_inv g' pt ih
  | submit_draw g' _ ih => exact submit_draw_inv g' ih


/-- `try_move` accepts only destinations that exist on the board. -/
theorem tryMove_offset_isSome (g : Game) (pos : Position) (rs fs : Int)
    (h : Game.tryMove g pos rs fs 1 = true) : (pos.offset rs fs).isSome := by
  unfold Game.tryMove at h
  by_cases hv : pos.validB
  · rw [if_pos hv] at h
    cases hp : g.pieceAt pos.idx with
    | none => rw [hp] at h; exact Bool.noConfusion h
    | some mp =>
      rw [hp] at h
      unfold Game.tryWalk at h
      cases ho : pos.offset rs fs with
      | none => rw [ho] at h; exact Bool.noConfusion h
      | some _ => simp [ho]
  · rw [if_neg hv] at h; exact Bool.noConfusion h


/-- With the king-safety-checking `try_move`, the single-step move
generation never hits the error exit. -/
theorem pushSingle_tryMove_isSome (g : Game) (pos : Position)
    (dirs : List (Int × Int)) (acc : List Position) :
    (Game.pushSingle Game.tryMove g pos dirs acc).isSome := by
  induction dirs generalizing acc with
  | nil => simp [Game.pushSingle]
  | cons d rest ih =>
    unfold Game.pushSingle
    by_cases ht : Game.tryMove g pos d.1 d.2 1
    · cases ho : pos.offset d.1 d.2 with
      | none =>
        exact absurd (tryMove_offset_isSome g pos d.1 d.2 ht) (by simp [ho])
      | some np => simp [ht, ho, ih]
    · simp [ht, ih]


/-- Everything the single-step generation pushes is an offset of the
source square by one of the listed directions. -/
theorem pushSingle_mem (tm : Game → Position → Int → Int → Nat → Bool)
    (g : Game) (pos : Position) (dirs : List (Int × Int)) (acc l : List Position)
    (h : Game.pushSingle tm g pos dirs acc = some l) (x : Position) (hx : x ∈ l) :
    x ∈ acc ∨ ∃ d ∈ dirs, pos.offset d.1 d.2 = some x := by
  induction dirs generalizing acc with
  | nil =>
    unfold Game.pushSingle at h
    cases h
    exact Or.inl hx
  | cons d rest ih =>
    unfold Game.pushSingle at h
    by_cases ht : tm g pos d.1 d.2 1
    · rw [if_pos ht] at h
      cases ho : pos.offset d.1 d.2 with
      | none => rw [ho] at h; exact Option.noConfusion h
      | some np =>
        rw [ho] at h
        rcases ih (acc ++ [np]) h with hm | ⟨d', hd', ho'⟩
        · rcases List.mem_append.mp hm with hm | hm
          · exact Or.inl hm
          · refine Or.inr ⟨d, List.mem_cons_self _ _, ?_⟩
            rw [ho]
            cases List.mem_singleton.mp hm
            rfl
        · exact Or.inr ⟨d', List.mem_cons_of_mem _ hd', ho'⟩
    · rw [if_neg ht] at h
      rcases ih acc h with hm | ⟨d', hd', ho'⟩
      · exact Or.inl hm
      · exact Or.inr ⟨d', List.mem_cons_of_mem _ hd', ho'⟩


/-- No single king step from e1 lands on c1. -/
theorem kingStep_ne_c1 :
    ∀ d ∈ ([(1, 1), (1, 0), (1, -1), (0, 1), (0, -1), (-1, 1), (-1, 0), (-1, -1)] :
      List (Int × Int)), e1Pos.offset d.1 d.2 ≠ some c1Pos := by
  decide


/-- The castling section puts c1 into White's king moves exactly when
the queenside right holds, b1/c1/d1 are empty and both `try_move`
probes succeed. -/
theorem c1_mem_castlingMoves (tm : Game → Position → Int → Int → Nat → Bool)
    (g : Game) (acc : List Position) (hacc : c1Pos ∉ acc) :
    c1Pos ∈ Game.castlingMoves tm g Colour.White acc ↔
      (g.white_has_right_to_castle_queenside = true ∧
       g.pieceAt 1 = none ∧ g.pieceAt 2 = none ∧ g.pieceAt 3 = none ∧
       tm g e1Pos 0 (-1) 1 = true ∧ tm g e1Pos 0 (-2) 1 = true) := by
  have hacc2 : ({ rank := 0, file := 2, idx := 2 } : Position) ∉ acc := hacc
  unfold Game.castlingMoves
  simp only [e1Pos, c1Pos, Option.isNone_iff_eq_none]
  split_ifs <;>
    simp_all [List.mem_append]


/-- When the probed square is empty and the white king stands on e1, the
`try_move` probe is exactly the king-safety simulation onto that
square. -/
theorem tryMove_eq_simulation (g : Game) (fs : Int) (to_pos : Position)
    (hk : g.pieceAt 4 = some whiteKing)
    (hoff : e1Pos.offset 0 fs = some to_pos)
    (hempty : g.pieceAt to_pos.idx = none) :
    Game.tryMove g e1Pos 0 fs 1 = simulationKeepsKingSafe g e1Pos to_pos := by
  have hv : e1Pos.validB = true := by decide
  have hwalk : Game.tryWalk g whiteKing.colour 0 fs e1Pos 1 = some to_pos := by
    unfold Game.tryWalk
    rw [hoff]
    dsimp only
    rw [hempty]
    rfl
  unfold Game.tryMove
  rw [if_pos hv]
  have he1 : e1Pos.idx = 4 := rfl
  rw [he1, hk]
  dsimp only
  rw [hwalk]
  rfl


/-! The remaining claim theorems and their witnesses. -/

/-- C1: every submission rejected for one of the enumerated reasons —
malformed square text (`make_move`), wrong state, invalid or empty or
wrong-colour source, or a destination outside the generated legal set —
returns an error and leaves the entire game value (board, active colour,
castling rights, en-passant target, clocks, state and history)
unchanged; and every erroneous `set_promotion` likewise leaves the game
unchanged. -/
theorem rejected_submission_preserves_game (g : Game) (s1 s2 : String) (fp tp : Position) (pt : PieceType) :
    ((Position.parse_str s1 = none ∨ Position.parse_str s2 = none) →
      Game.make_move g s1 s2 = (none, g)) ∧
    (RejectedSubmission g fp tp → Game.make_move_pos g fp tp = (none, g)) ∧
    ((Game.set_promotion g pt).1 = none → (Game.set_promotion g pt).2 = g) := by
  refine ⟨?_, ?_, ?_⟩
  · intro hparse
    unfold Game.make_move
    cases h1 : Position.parse_str s1 with
    | none => rfl
    | some p1 =>
      cases h2 : Position.parse_str s2 with
      | none => rfl
      | some p2 =>
        rcases hparse with h | h <;> simp_all
  · intro hrej
    unfold Game.make_move_pos
    by_cases h1 : (g.state = GameState.InProgress ∨ g.state = GameState.Check)
    · by_cases h2 : fp.validB
      · by_cases h3 : tp.validB
        · cases h4 : g.pieceAt fp.idx with
          | none => simp [h1, h2, h3, h4]
          | some p =>
            by_cases h5 : p.colour = g.active_colour
            · cases h6 : Game.get_possible_moves g fp with
              | none => simp [h1, h2, h3, h4, h5, h6]
              | some l =>
                by_cases h7 : l.any (fun q => q == tp)
                · exfalso
                  rcases hrej with h | h | h | h | ⟨p', hp', hc'⟩ | h
                  · exact h h1
                  · exact h h2
                  · exact h h3
                  · rw [h4] at h; exact Option.noConfusion h
                  · rw [h4] at hp'
                    cases hp'
                    exact hc' h5
                  · exact absurd (h l h6) (by simp [h7])
                · simp [h1, h2, h3, h4, h5, h6, h7]
            · simp [h1, h2, h3, h4, h5]
        · simp [h1, h2, h3]
      · simp [h1, h2]
    · simp [h1]
  · intro herr
    unfold Game.set_promotion at *
    by_cases hs : g.state = GameState.WaitingOnPromotionChoice
    · by_cases hk : pt = PieceType.King
      · simp [hs, hk]
      · by_cases hp : pt = PieceType.Pawn
        · simp [hs, hk, hp]
        · cases hf : Game.find_pawn_to_promote g with
          | none => simp [hs, hk, hp, hf]
          | some pos =>
            cases hput : Game.put g pos ⟨pt, g.active_colour⟩ with
            | mk r g' =>
              cases r with
              | none =>
                have := put_err_eq g pos ⟨pt, g.active_colour⟩ (by rw [hput])
                rw [hput] at this
                simp [hs, hk, hp, hf, hput, this]
              | some u =>
                exfalso
                simp [hs, hk, hp, hf, hput] at herr
    · simp [hs]


/-- C1 (witness): a malformed square string, a move from the empty
square e3 and a promotion request in the initial position are all
rejected with the game unchanged. -/
theorem rejected_submission_preserves_game_witness :
    Game.make_move Game.new "zz" "a1" = (none, Game.new) ∧
    Game.make_move_pos Game.new e3Pos e4Pos = (none, Game.new) ∧
    (Game.set_promotion Game.new PieceType.Queen).2 = Game.new := by
  have h := rejected_submission_preserves_game Game.new "zz" "a1" e3Pos e4Pos
    PieceType.Queen
  exact ⟨h.1 (Or.inl (by decide)),
         h.2.1 (Or.inr (Or.inr (Or.inr (Or.inl (by decide))))),
         h.2.2 (by decide)⟩

/-- C2 (amended): when the classification runs with the halfmove clock
at 150 or more (no promotion pending, no fivefold repetition, no
insufficient material, no stale Checkmate reason), the game always ends:
with reason Checkmate when the side to move is checkmated — checkmate
takes precedence — and with reason SeventyFiveMoveRule in every other
case, *including stalemate*. -/
theorem clock_at_150_classification (g : Game)
    (h1 : g.state ≠ GameState.GameOver)
    (h2 : Game.find_pawn_to_promote g = none)
    (h3 : g.game_over_reason ≠ some GameOverReason.Checkmate)
    (h4 : g.halfmoves ≥ 150)
    (h5 : Game.is_fivefold_repetition { g with active_colour := g.active_colour.invert } = false)
    (h6 : Game.insufficientMaterialTriggered { g with active_colour := g.active_colour.invert } = false) :
    (Game.update_game_state g).state = GameState.GameOver ∧
    (Game.update_game_state g).game_over_reason =
      some (if Game.isInCheck { g with active_colour := g.active_colour.invert } (g.active_colour.invert) &&
               !Game.can_make_legal_move { g with active_colour := g.active_colour.invert }
            then GameOverReason.Checkmate else GameOverReason.SeventyFiveMoveRule) := by
  have hgo : Game.is_gameover g = false := by
    simp [Game.is_gameover, h1]
  unfold Game.update_game_state
  rw [hgo]
  simp only [Bool.false_eq_true, if_false, h2, Option.isSome_none, h5, h6]
  by_cases hc : Game.isInCheck { g with active_colour := g.active_colour.invert } (g.active_colour.invert)
  · by_cases hm : Game.can_make_legal_move { g with active_colour := g.active_colour.invert }
    · simp only [hc, hm, if_true, Bool.not_true, Bool.and_false]
      cases hw : g.active_colour.invert.is_white <;>
        simp [hw, Game.is_checkmate, h3, h4]
    · simp only [hc, hm, Bool.not_false, Bool.and_true, if_true, if_false]
      simp [Game.is_checkmate, hc, hm]
  · by_cases hm : Game.can_make_legal_move { g with active_colour := g.active_colour.invert }
    · simp [hc, hm, Game.is_checkmate, h3, h4]
    · simp [hc, hm, Game.is_checkmate, h3, h4]


/-- C2 (witness): applying the amended classification theorem to the
concrete stalemate-at-clock-150 position. -/
theorem clock_at_150_classification_witness :
    (Game.update_game_state stalemateAt150).state = GameState.GameOver ∧
    (Game.update_game_state stalemateAt150).game_over_reason =
      some (if Game.isInCheck
              { stalemateAt150 with active_colour := stalemateAt150.active_colour.invert }
              (stalemateAt150.active_colour.invert) &&
            !Game.can_make_legal_move
              { stalemateAt150 with active_colour := stalemateAt150.active_colour.invert }
            then GameOverReason.Checkmate
            else GameOverReason.SeventyFiveMoveRule) :=
  clock_at_150_classification stalemateAt150 (by decide) (by decide) (by decide)
    (by decide) (by decide) (by decide)

/-- C5 (amended): for any game with the white king on e1, the queenside
castling arrival c1 is generated iff the queenside right is true, the
squares b1, c1 and d1 are empty, and the king-safety simulation accepts
the king's move onto the transit square d1 and onto the arrival square
c1 (the latter simulation includes the rook relocation).  The king's
current square is *not* tested, so castling can be offered while the
king is attacked; the arrival square *is* tested. -/
theorem white_queenside_castle_generation_iff (g : Game)
    (hk : g.pieceAt 4 = some whiteKing) :
    c1Pos ∈ (Game.get_possible_moves g e1Pos).getD [] ↔
      (g.white_has_right_to_castle_queenside = true ∧
       g.pieceAt 1 = none ∧ g.pieceAt 2 = none ∧ g.pieceAt 3 = none ∧
       simulationKeepsKingSafe g e1Pos d1Pos = true ∧
       simulationKeepsKingSafe g e1Pos c1Pos = true) := by
  unfold Game.get_possible_moves Game.genMovesWith
  have hv : e1Pos.validB = true := by decide
  rw [if_pos hv]
  have he1 : e1Pos.idx = 4 := rfl
  rw [he1, hk]
  show c1Pos ∈ (match Game.pushSingle Game.tryMove g e1Pos
      [(1, 1), (1, 0), (1, -1), (0, 1), (0, -1), (-1, 1), (-1, 0), (-1, -1)] [] with
    | none => none
    | some acc =>
        some (Game.castlingMoves Game.tryMove g whiteKing.colour acc)).getD [] ↔ _
  cases hpush : Game.pushSingle Game.tryMove g e1Pos
      [(1, 1), (1, 0), (1, -1), (0, 1), (0, -1), (-1, 1), (-1, 0), (-1, -1)] [] with
  | none =>
    have hs := pushSingle_tryMove_isSome g e1Pos
      [((1 : Int), (1 : Int)), (1, 0), (1, -1), (0, 1), (0, -1), (-1, 1), (-1, 0), (-1, -1)] []
    rw [hpush] at hs
    simp at hs
  | some acc =>
    have hacc : c1Pos ∉ acc := by
      intro hmem
      rcases pushSingle_mem Game.tryMove g e1Pos _ [] acc hpush c1Pos hmem with
        hnil | ⟨d, hd, ho⟩
      · exact List.not_mem_nil _ hnil
      · exact kingStep_ne_c1 d hd ho
    show c1Pos ∈ (Game.castlingMoves Game.tryMove g whiteKing.colour acc) ↔ _
    rw [show whiteKing.colour = Colour.White from rfl]
    rw [c1_mem_castlingMoves Game.tryMove g acc hacc]
    constructor
    · rintro ⟨h1, h2, h3, h4, h5, h6⟩
      refine ⟨h1, h2, h3, h4, ?_, ?_⟩
      · rw [← tryMove_eq_simulation g (-1) d1Pos hk (by decide) (by
          show g.pieceAt 3 = none
          exact h4)]
        exact h5
      · rw [← tryMove_eq_simulation g (-2) c1Pos hk (by decide) (by
          show g.pieceAt 2 = none
          exact h3)]
        exact h6
    · rintro ⟨h1, h2, h3, h4, h5, h6⟩
      refine ⟨h1, h2, h3, h4, ?_, ?_⟩
      · rw [tryMove_eq_simulation g (-1) d1Pos hk (by decide) (by
          show g.pieceAt 3 = none
          exact h4)]
        exact h5
      · rw [tryMove_eq_simulation g (-2) c1Pos hk (by decide) (by
          show g.pieceAt 2 = none
          exact h3)]
        exact h6


/-- C5 (witness): the generation equivalence instantiated at the
concrete position in which the white king on e1 is attacked. -/
theorem white_queenside_castle_generation_iff_witness :
    c1Pos ∈ (Game.get_possible_moves castleWhileCheckedGame e1Pos).getD [] ↔
      (castleWhileCheckedGame.white_has_right_to_castle_queenside = true ∧
       castleWhileCheckedGame.pieceAt 1 = none ∧
       castleWhileCheckedGame.pieceAt 2 = none ∧
       castleWhileCheckedGame.pieceAt 3 = none ∧
       simulationKeepsKingSafe castleWhileCheckedGame e1Pos d1Pos = true ∧
       simulationKeepsKingSafe castleWhileCheckedGame e1Pos c1Pos = true) :=
  white_queenside_castle_generation_iff castleWhileCheckedGame (by decide)

/-- C8 (amended): a completed capture on a canonical rook home square
revokes that corner's castling right whenever the moving piece is
neither a King nor a Rook (the captured piece being a rook); the
counterexample shows the revocation is skipped for King and Rook
movers. -/
theorem nonroyal_capture_on_rook_home_revokes_right (g : Game) (fp tp : Position) (p q : Piece)
    (hfv : fp.validB = true) (htv : tp.validB = true)
    (hp : g.pieceAt fp.idx = some p)
    (hq : g.pieceAt tp.idx = some q)
    (hpk : p.piece_type ≠ PieceType.King)
    (hpr : p.piece_type ≠ PieceType.Rook)
    (hqr : q.piece_type = PieceType.Rook)
    (hcorner : tp.idx = 0 ∨ tp.idx = 7 ∨ tp.idx = 56 ∨ tp.idx = 63)
    (hep : p.piece_type = PieceType.Pawn → (tp ≠ g.en_passant_target ∧
        ¬((tp.rank : Int) - (fp.rank : Int) = 2 ∨ (fp.rank : Int) - (tp.rank : Int) = 2))) :
    (Game.perfom_move g fp tp).1 = some () ∧
    cornerRight (Game.perfom_move g fp tp).2 tp.idx = false := by
  unfold Game.perfom_move
  simp only [Game.get, hfv, htv, hp, hq, if_true, Game.remove, Game.put]
  cases hpt : p.piece_type with
  | King => exact absurd hpt hpk
  | Rook => exact absurd hpt hpr
  | Pawn =>
    obtain ⟨hep1, hep2⟩ := hep hpt
    cases hb : g.active_colour.is_black <;>
    · simp only [hb, Piece.is_pawn, PieceType.is_pawn, hpt, Bool.true_or, if_true,
        Option.isSome_some, reduceCtorEq, false_and, if_false, ite_true, ite_false,
        hep1, hep2]
      simp only [Game.castlingBookkeeping, hpt, hqr, Piece.is_rook, PieceType.is_rook]
      rcases hcorner with hc | hc | hc | hc <;>
        simp [cornerRight, hc]
  | Queen =>
    cases hb : g.active_colour.is_black <;>
    · simp only [hb, Piece.is_pawn, PieceType.is_pawn, hpt, reduceCtorEq, false_and,
        if_false, Option.isSome_some, Bool.false_or, ite_true, ite_false]
      simp only [Game.castlingBookkeeping, hpt, hqr, Piece.is_rook, PieceType.is_rook]
      rcases hcorner with hc | hc | hc | hc <;>
        simp [cornerRight, hc]
  | Knight =>
    cases hb : g.active_colour.is_black <;>
    · simp only [hb, Piece.is_pawn, PieceType.is_pawn, hpt, reduceCtorEq, false_and,
        if_false, Option.isSome_some, Bool.false_or, ite_true, ite_false]
      simp only [Game.castlingBookkeeping, hpt, hqr, Piece.is_rook, PieceType.is_rook]
      rcases hcorner with hc | hc | hc | hc <;>
        simp [cornerRight, hc]
  | Bishop =>
    cases hb : g.active_colour.is_black <;>
    · simp only [hb, Piece.is_pawn, PieceType.is_pawn, hpt, reduceCtorEq, false_and,
        if_false, Option.isSome_some, Bool.false_or, ite_true, ite_false]
      simp only [Game.castlingBookkeeping, hpt, hqr, Piece.is_rook, PieceType.is_rook]
      rcases hcorner with hc | hc | hc | hc <;>
        simp [cornerRight, hc]


/-- C8 (witness): the amended revocation theorem applied to a knight
capturing the rook on a8. -/
theorem nonroyal_capture_on_rook_home_revokes_right_witness :
    (Game.perfom_move knightTakesRookGame b6Pos a8Pos).1 = some () ∧
    cornerRight (Game.perfom_move knightTakesRookGame b6Pos a8Pos).2 a8Pos.idx
      = false :=
  nonroyal_capture_on_rook_home_revokes_right knightTakesRookGame b6Pos a8Pos
    whiteKnight blackRook (by decide) (by decide) (by decide) (by decide)
    (by decide) (by decide) (by decide) (by decide) (by decide)

/-- C9 (amended): once the state is GameOver, `make_move_pos` and
`set_promotion` return errors leaving the game exactly unchanged;
`submit_draw` keeps the state GameOver but (as the counterexample shows,
overwriting any earlier reason) records ManualDraw. -/
theorem gameover_rejects_moves_and_promotion (g : Game) (fp tp : Position) (pt : PieceType)
    (h : g.state = GameState.GameOver) :
    Game.make_move_pos g fp tp = (none, g) ∧
    Game.set_promotion g pt = (none, g) ∧
    (Game.submit_draw g).state = GameState.GameOver ∧
    (Game.submit_draw g).game_over_reason = some GameOverReason.ManualDraw := by
  refine ⟨?_, ?_, rfl, rfl⟩
  · unfold Game.make_move_pos
    simp [h]
  · unfold Game.set_promotion
    simp [h]


/-- C9 (witness): the terminal-state theorem applied to a finished game
with recorded reason Checkmate. -/
theorem gameover_rejects_moves_and_promotion_witness :
    Game.make_move_pos checkmatedGame e3Pos e4Pos = (none, checkmatedGame) ∧
    Game.set_promotion checkmatedGame PieceType.Queen = (none, checkmatedGame) ∧
    (Game.submit_draw checkmatedGame).state = GameState.GameOver ∧
    (Game.submit_draw checkmatedGame).game_over_reason =
      some GameOverReason.ManualDraw :=
  gameover_rejects_moves_and_promotion checkmatedGame e3Pos e4Pos
    PieceType.Queen (by decide)

/-- C10: in every game reachable from `Game::new()` through the public
mutating operations, the halfmove clock never exceeds 150; in
particular, in any state that accepts a move (InProgress or Check) the
`u8` increment `halfmoves + 1` cannot wrap around. -/
theorem halfmove_clock_never_exceeds_150 (g : Game) (h : Reachable g) :
    g.halfmoves ≤ 150 ∧
    ((g.state = GameState.InProgress ∨ g.state = GameState.Check) →
      (g.halfmoves + 1) % 256 = g.halfmoves + 1) := by
  have hinv := reachable_inv g h
  refine ⟨hinv.1, fun hs => ?_⟩
  have := hinv.2.1 hs
  exact Nat.mod_eq_of_lt (by omega)


/-- C10 (witness): the bound applied to the freshly initialised game. -/
theorem halfmove_clock_never_exceeds_150_witness :
    Game.new.halfmoves ≤ 150 ∧
    ((Game.new.state = GameState.InProgress ∨ Game.new.state = GameState.Check) →
      (Game.new.halfmoves + 1) % 256 = Game.new.halfmoves + 1) :=
  halfmove_clock_never_exceeds_150 Game.new Reachable.new


end Chess
